import Mathlib

/-!
Verification of the reading-levels pipeline (readability metrics,
aggregation, HTML extraction) against its design specification.

The Python sources are shallowly embedded: pure functions become Lean
functions over `List Char` / `String`, floating-point arithmetic is
modelled over `ℚ`, Python `None` becomes `Option`, and Python's
truthiness tests on strings (`if s:`) are modelled explicitly
(`s ≠ ""`).  Python `str.strip()` is modelled over its ASCII whitespace
set.
-/

namespace RL

/-- ASCII whitespace, the characters stripped by Python `str.strip()`
on ASCII input (space, tab, newline, carriage return, vertical tab,
form feed). -/
def isPySpace (c : Char) : Bool :=
  c == ' ' || c == '\t' || c == '\n' || c == '\r' || c == '\x0b' || c == '\x0c'

/-- `str.strip()` on a character list: drop leading and trailing
whitespace. -/
def stripChars (l : List Char) : List Char :=
  ((l.dropWhile isPySpace).reverse.dropWhile isPySpace).reverse

/-- Python `text.strip()`. -/
def pyStrip (s : String) : String :=
  String.mk (stripChars s.toList)

/-- The apostrophe character, written via its code point. -/
def apostrophe : Char := Char.ofNat 39

/-- A character matched by the word regex `[A-Za-z']`. -/
def isWordChar (c : Char) : Bool :=
  c.isAlpha || c == apostrophe

/-- A sentence-delimiter character, from the regex `[.!?]+`. -/
def isSentSep (c : Char) : Bool :=
  c == '.' || c == '!' || c == '?'

/-- `re.split(r"[.!?]+", text)`: split on maximal runs of sentence
delimiters, keeping (possibly empty) segments between runs. -/
def splitSentences : List Char → List (List Char)
  | [] => [[]]
  | c :: rest =>
    if isSentSep c then
      match rest with
      | d :: _ =>
        if isSentSep d then splitSentences rest
        else [] :: splitSentences rest
      | [] => [[], []]
    else
      match splitSentences rest with
      | h :: t => (c :: h) :: t
      | [] => [[c]]

/-- `re.findall(r"[A-Za-z']+", text)`: the maximal runs of word
characters, as token character lists. -/
def tokenizeWords : List Char → List (List Char)
  | [] => []
  | c :: rest =>
    let r := tokenizeWords rest
    if isWordChar c then
      match rest with
      | d :: _ =>
        if isWordChar d then
          match r with
          | h :: t => (c :: h) :: t
          | [] => [[c]]
        else [c] :: r
      | [] => [[c]]
    else r

/-- `metrics._count_sentences`: count the split segments that are
non-empty after stripping (i.e. contain a non-whitespace character),
with a floor of one. -/
def count_sentences (l : List Char) : Nat :=
  max 1 ((splitSentences l).countP (fun part => part.any (fun c => !(isPySpace c))))

/-- A vowel-like character, from the regex `[aeiouy]` (applied after
lowercasing). -/
def isVowel (c : Char) : Bool :=
  c == 'a' || c == 'e' || c == 'i' || c == 'o' || c == 'u' || c == 'y'

/-- Count maximal runs of vowel-like characters
(`re.findall(r"[aeiouy]+", w)` length); `prev` records whether the
previous character was a vowel. -/
def countVowelRuns : List Char → Bool → Nat
  | [], _ => 0
  | c :: rest, prev =>
    (if isVowel c && !prev then 1 else 0) + countVowelRuns rest (isVowel c)

/-- `w.endswith("e") and not w.endswith("le")`. -/
def endsInSilentE (l : List Char) : Bool :=
  match l.reverse with
  | [] => false
  | c :: rest =>
    c == 'e' &&
      (match rest with
       | d :: _ => !(d == 'l')
       | [] => true)

/-- `metrics._count_syllables_in_word`: lowercase, strip one trailing
silent `e` when the word is longer than two characters, count vowel
runs, floor of one. -/
def count_syllables_in_word (w : List Char) : Nat :=
  let l := w.map Char.toLower
  let stripped := if 2 < l.length && endsInSilentE l then l.dropLast else l
  max 1 (countVowelRuns stripped false)

/-- `metrics._count_syllables`. -/
def count_syllables (words : List (List Char)) : Nat :=
  (words.map count_syllables_in_word).sum

/-- `metrics._count_complex_words`: words with at least three estimated
syllables. -/
def count_complex_words (words : List (List Char)) : Nat :=
  words.countP (fun w => decide (3 ≤ count_syllables_in_word w))

/-- Words longer than three characters, the "difficult" words of the
approximate Dale-Chall computation. -/
def count_difficult_words (words : List (List Char)) : Nat :=
  words.countP (fun w => decide (3 < w.length))

/-- The row returned by `metrics.readability_metrics`. -/
structure MetricsRow where
  gunning_fog : Option ℚ
  dale_chall : Option ℚ
  flesch_reading_ease : Option ℚ
  num_words : Nat
  num_sentences : Nat
  deriving DecidableEq, Repr

/-- `num_words / max(1, num_sentences)`, the average sentence length. -/
def aslOf (words : List (List Char)) (ns : Nat) : ℚ :=
  (words.length : ℚ) / (max 1 ns : ℚ)

/-- The Flesch Reading Ease expression of `readability_metrics`. -/
def fleschOf (words : List (List Char)) (ns : Nat) : ℚ :=
  206.835 - 1.015 * aslOf words ns
    - 84.6 * ((count_syllables words : ℚ) / (words.length : ℚ))

/-- The Gunning Fog expression of `readability_metrics`. -/
def gunningOf (words : List (List Char)) (ns : Nat) : ℚ :=
  0.4 * (aslOf words ns + ((count_complex_words words : ℚ) / (words.length : ℚ)) * 100)

/-- The percentage of difficult words of `readability_metrics`. -/
def pdwOf (words : List (List Char)) : ℚ :=
  ((count_difficult_words words : ℚ) / (words.length : ℚ)) * 100

/-- The approximate Dale-Chall expression of `readability_metrics`. -/
def daleOf (words : List (List Char)) (ns : Nat) : ℚ :=
  let base := 0.1579 * pdwOf words + 0.0496 * aslOf words ns
  if 5 < pdwOf words then base + 3.6365 else base

/-- `metrics.readability_metrics`, from-scratch (non-`textstat`) path.
The optional `textstat` library is an external dependency; the design
spec fixes the from-scratch algorithm as the deterministic contract. -/
def readability_metrics (text : String) : MetricsRow :=
  let t := pyStrip text
  if t = "" then ⟨none, none, none, 0, 0⟩
  else
    let words := tokenizeWords t.toList
    let ns := count_sentences t.toList
    if words.length = 0 then ⟨none, none, none, 0, ns⟩
    else
      ⟨some (gunningOf words ns), some (daleOf words ns), some (fleschOf words ns),
       words.length, ns⟩

/-! ## Aggregation engine (`rl/aggregation.py`) -/

/-- `aggregation.ArticleRow` (dataclass).  Numeric counts are Python
ints (`ℤ`), scores are `float | None` (`Option ℚ`). -/
structure ArticleRow where
  source : String
  url : String
  title : Option String
  author : Option String
  sectionName : Option String
  published : Option String
  issue_date : Option String
  num_words : ℤ
  num_sentences : ℤ
  gunning_fog : Option ℚ
  dale_chall : Option ℚ
  flesch_reading_ease : Option ℚ
  deriving DecidableEq

/-- `aggregation._mean`: arithmetic mean over the present values, `None`
when none are present. -/
def pyMean (values : List (Option ℚ)) : Option ℚ :=
  let vals := values.filterMap id
  if vals.length = 0 then none else some (vals.sum / (vals.length : ℚ))

/-- The accumulator loop of `aggregation._weighted_mean`: entries with
an absent value or a non-positive weight are skipped. -/
def wmAccum : List (Option ℚ × ℤ) → ℚ → ℤ → ℚ × ℤ
  | [], n, d => (n, d)
  | (v, w) :: rest, n, d =>
    match v with
    | none => wmAccum rest n d
    | some x => if w ≤ 0 then wmAccum rest n d else wmAccum rest (n + x * (w : ℚ)) (d + w)

/-- `aggregation._weighted_mean`. -/
def pyWeightedMean (values : List (Option ℚ × ℤ)) : Option ℚ :=
  let p := wmAccum values 0 0
  if p.2 = 0 then none else some (p.1 / (p.2 : ℚ))

/-- An entry that contributes to the weighted mean: present value and
strictly positive weight. -/
def wmQualifies (e : Option ℚ × ℤ) : Bool :=
  e.1.isSome && decide (0 < e.2)

/-- Weighted numerator over the qualifying entries. -/
def wmNum (values : List (Option ℚ × ℤ)) : ℚ :=
  ((values.filter wmQualifies).map (fun e => e.1.getD 0 * (e.2 : ℚ))).sum

/-- Weighted denominator (total weight) over the qualifying entries. -/
def wmDen (values : List (Option ℚ × ℤ)) : ℤ :=
  ((values.filter wmQualifies).map (fun e => e.2)).sum

/-- Python string truthiness: `None` and `""` are falsy. -/
def truthyStr : Option String → Bool
  | some s => !(s == "")
  | none => false

/-- Python `a or b` on optional strings. -/
def pyOrStr (a b : Option String) : Option String :=
  if truthyStr a then a else b

/-- The grouping date of `aggregate_per_issue`:
`key_date = r.issue_date or r.published or None`, with the subsequent
`if not key_date: continue` folded in (`none` means the row is
skipped). -/
def keyDateOf (r : ArticleRow) : Option String :=
  let k := pyOrStr r.issue_date r.published
  if truthyStr k then k else none

/-- Ascending order on `(issue_date, source)` keys: Python tuple
comparison, lexicographic with code-point string order. -/
def issueKeyLE (a b : String × String) : Prop :=
  a.1 < b.1 ∨ (a.1 = b.1 ∧ a.2 ≤ b.2)

instance issueKeyLE.dec : DecidableRel issueKeyLE := fun a b =>
  inferInstanceAs (Decidable (a.1 < b.1 ∨ (a.1 = b.1 ∧ a.2 ≤ b.2)))

instance issueKeyLE.total : IsTotal (String × String) issueKeyLE where
  total a b := by
    unfold issueKeyLE
    rcases lt_trichotomy a.1 b.1 with h | h | h
    · exact Or.inl (Or.inl h)
    · rcases le_total a.2 b.2 with h2 | h2
      · exact Or.inl (Or.inr ⟨h, h2⟩)
      · exact Or.inr (Or.inr ⟨h.symm, h2⟩)
    · exact Or.inr (Or.inl h)

instance issueKeyLE.trans : IsTrans (String × String) issueKeyLE where
  trans a b c hab hbc := by
    unfold issueKeyLE at *
    rcases hab with h1 | ⟨h1, h1b⟩ <;> rcases hbc with h2 | ⟨h2, h2b⟩
    · exact Or.inl (h1.trans h2)
    · exact Or.inl (h2 ▸ h1)
    · exact Or.inl (h1 ▸ h2)
    · exact Or.inr ⟨h1.trans h2, h1b.trans h2b⟩

/-- The sorted list of distinct `(key_date, source)` group keys of
`aggregate_per_issue` (`sorted(by_issue.items())`; the `defaultdict`
holds each key once). -/
def issueKeys (rows : List ArticleRow) : List (String × String) :=
  ((rows.filterMap (fun r => (keyDateOf r).map (fun d => (d, r.source)))).dedup).insertionSort
    issueKeyLE

/-- The rows collected for one `(key_date, source)` group, in input
order (the order `by_issue[...]` is appended in). -/
def groupRows (rows : List ArticleRow) (k : String × String) : List ArticleRow :=
  rows.filter (fun r => decide (keyDateOf r = some k.1 ∧ r.source = k.2))

/-- One output row of `aggregate_per_issue`. -/
structure IssueRow where
  issue_date : String
  source : String
  num_articles : Nat
  total_words : ℤ
  gunning_fog_mean : Option ℚ
  dale_chall_mean : Option ℚ
  flesch_reading_ease_mean : Option ℚ
  gunning_fog_weighted_mean : Option ℚ
  dale_chall_weighted_mean : Option ℚ
  flesch_reading_ease_weighted_mean : Option ℚ
  deriving DecidableEq

/-- The body of the `aggregate_per_issue` output loop for one group. -/
def mkIssueRow (k : String × String) (items : List ArticleRow) : IssueRow where
  issue_date := k.1
  source := k.2
  num_articles := items.length
  total_words := (items.map (fun r => r.num_words)).sum
  gunning_fog_mean := pyMean (items.map (fun r => r.gunning_fog))
  dale_chall_mean := pyMean (items.map (fun r => r.dale_chall))
  flesch_reading_ease_mean := pyMean (items.map (fun r => r.flesch_reading_ease))
  gunning_fog_weighted_mean :=
    pyWeightedMean (items.map (fun r => (r.gunning_fog, r.num_words)))
  dale_chall_weighted_mean :=
    pyWeightedMean (items.map (fun r => (r.dale_chall, r.num_words)))
  flesch_reading_ease_weighted_mean :=
    pyWeightedMean (items.map (fun r => (r.flesch_reading_ease, r.num_words)))

/-- `aggregation.aggregate_per_issue` (the in-memory rows; CSV output is
I/O). -/
def aggregate_per_issue (rows : List ArticleRow) : List IssueRow :=
  (issueKeys rows).map (fun k => mkIssueRow k (groupRows rows k))

/-- `aggregation.write_per_article_csv` writes one CSV record per input
row, in input order; the records themselves are a field-for-field
serialization, modelled here by the row list. -/
def write_per_article_csv (rows : List ArticleRow) : List ArticleRow :=
  rows

/-- One output row of `aggregate_per_year`. -/
structure YearRow where
  year : Nat
  source : String
  gunning_fog_mean : Option ℚ
  dale_chall_mean : Option ℚ
  flesch_reading_ease_mean : Option ℚ
  deriving DecidableEq

/-- The calendar year of an ISO `YYYY-MM-DD` date string: the value of
its first four (digit) characters, as extracted by
`datetime.strptime(date, "%Y-%m-%d").year`. -/
def yearOf (s : String) : Nat :=
  (s.toList.take 4).foldl (fun n c => 10 * n + (c.toNat - 48)) 0

def isLeapYear (y : Nat) : Bool :=
  (y % 4 == 0 && !(y % 100 == 0)) || y % 400 == 0

def daysInMonth (y m : Nat) : Nat :=
  if m = 2 then (if isLeapYear y then 29 else 28)
  else if m = 4 ∨ m = 6 ∨ m = 9 ∨ m = 11 then 30
  else 31

/-- A date string accepted by `datetime.strptime(s, "%Y-%m-%d")` in the
ten-character ISO form: four year digits, dash, valid two-digit month,
dash, valid two-digit day. -/
def isValidIsoDate (s : String) : Bool :=
  match s.toList with
  | [y1, y2, y3, y4, h1, m1, m2, h2, d1, d2] =>
    y1.isDigit && y2.isDigit && y3.isDigit && y4.isDigit &&
    h1 == '-' && h2 == '-' &&
    m1.isDigit && m2.isDigit && d1.isDigit && d2.isDigit &&
    (let m := 10 * (m1.toNat - 48) + (m2.toNat - 48)
     let d := 10 * (d1.toNat - 48) + (d2.toNat - 48)
     decide (1 ≤ m) && decide (m ≤ 12) && decide (1 ≤ d) &&
       decide (d ≤ daysInMonth (yearOf s) m))
  | _ => false

/-- Ascending order on `(year, source)` keys. -/
def yearKeyLE (a b : Nat × String) : Prop :=
  a.1 < b.1 ∨ (a.1 = b.1 ∧ a.2 ≤ b.2)

instance yearKeyLE.dec : DecidableRel yearKeyLE := fun a b =>
  inferInstanceAs (Decidable (a.1 < b.1 ∨ (a.1 = b.1 ∧ a.2 ≤ b.2)))

instance yearKeyLE.total : IsTotal (Nat × String) yearKeyLE where
  total a b := by
    unfold yearKeyLE
    rcases lt_trichotomy a.1 b.1 with h | h | h
    · exact Or.inl (Or.inl h)
    · rcases le_total a.2 b.2 with h2 | h2
      · exact Or.inl (Or.inr ⟨h, h2⟩)
      · exact Or.inr (Or.inr ⟨h.symm, h2⟩)
    · exact Or.inr (Or.inl h)

instance yearKeyLE.trans : IsTrans (Nat × String) yearKeyLE where
  trans a b c hab hbc := by
    unfold yearKeyLE at *
    rcases hab with h1 | ⟨h1, h1b⟩ <;> rcases hbc with h2 | ⟨h2, h2b⟩
    · exact Or.inl (h1.trans h2)
    · exact Or.inl (h2 ▸ h1)
    · exact Or.inl (h1 ▸ h2)
    · exact Or.inr ⟨h1.trans h2, h1b.trans h2b⟩

/-- The sorted list of distinct `(year, source)` group keys of
`aggregate_per_year`. -/
def yearKeys (xs : List IssueRow) : List (Nat × String) :=
  ((xs.map (fun x => (yearOf x.issue_date, x.source))).dedup).insertionSort yearKeyLE

/-- The issue rows collected for one `(year, source)` group, in input
order. -/
def yearGroup (xs : List IssueRow) (k : Nat × String) : List IssueRow :=
  xs.filter (fun x => decide (yearOf x.issue_date = k.1 ∧ x.source = k.2))

/-- The body of the `aggregate_per_year` output loop for one group:
unweighted mean of the issue-level unweighted means. -/
def mkYearRow (k : Nat × String) (items : List IssueRow) : YearRow where
  year := k.1
  source := k.2
  gunning_fog_mean := pyMean (items.map (fun x => x.gunning_fog_mean))
  dale_chall_mean := pyMean (items.map (fun x => x.dale_chall_mean))
  flesch_reading_ease_mean := pyMean (items.map (fun x => x.flesch_reading_ease_mean))

/-- `aggregation.aggregate_per_year` on the issue rows.  The Python
function reads the rows back from the per-issue CSV (an I/O round trip
that preserves the `issue_date`, `source` and the three unweighted mean
columns, serializing absent values as empty cells); the statistical
stage modelled here consumes the issue rows directly. -/
def aggregate_per_year (xs : List IssueRow) : List YearRow :=
  (yearKeys xs).map (fun k => mkYearRow k (yearGroup xs k))

/-! ## Content extractor (`rl/parsing.py`)

The extractor operates on the tree BeautifulSoup produces from the
HTML; the tree is the model's input.  A document is a synthetic root
node whose strict descendants are everything BeautifulSoup would
traverse. -/

/-- A parsed HTML node: an element with tag name, class list, other
attributes and children, or a text node. -/
inductive HNode where
  | elem : String → List String → List (String × String) → List HNode → HNode
  | text : String → HNode

mutual

/-- The strict descendants of a node, in document (pre-)order. -/
def HNode.desc : HNode → List HNode
  | .text _ => []
  | .elem _ _ _ cs => descList cs

/-- All nodes of a forest and their descendants, in document order. -/
def descList : List HNode → List HNode
  | [] => []
  | n :: rest => n :: HNode.desc n ++ descList rest

end

/-- Tag name of a node (BeautifulSoup `tag.name`; text nodes have
none). -/
def tagOf : HNode → String
  | .elem t _ _ _ => t
  | .text _ => ""

/-- `tag.get(key)` on the non-class attributes. -/
def attrOf (n : HNode) (k : String) : Option String :=
  match n with
  | .elem _ _ attrs _ => ((attrs.find? (fun p => p.1 == k)).map (fun p => p.2))
  | .text _ => none

/-- A CSS selector of the restricted shape the extractor uses:
`tag`, `tag.class`, or `tag[attr='value']`. -/
structure CssSel where
  tag : String
  cls : Option String
  attr : Option (String × String)
  deriving DecidableEq

/-- Whether a node matches a selector. -/
def matchesSel (s : CssSel) : HNode → Bool
  | .elem t classes attrs _ =>
    t == s.tag &&
      (match s.cls with
       | some c => classes.contains c
       | none => true) &&
      (match s.attr with
       | some kv => ((attrs.find? (fun p => p.1 == kv.1)).map (fun p => p.2)) == some kv.2
       | none => true)
  | .text _ => false

/-- `soup.select_one(sel)` / `soup.find(...)`: the first matching
element in document order. -/
def selectOne (s : CssSel) (root : HNode) : Option HNode :=
  (HNode.desc root).find? (matchesSel s)

/-- `parsing._BODY_SELECTORS`. -/
def BODY_SELECTORS : List CssSel :=
  [⟨"article", none, none⟩,
   ⟨"main", none, none⟩,
   ⟨"div", some "article__body", none⟩,
   ⟨"div", some "ArticleBody__content", none⟩,
   ⟨"section", some "article-body", none⟩,
   ⟨"div", some "Body__inner-container", none⟩,
   ⟨"div", some "body__inner-container", none⟩]

/-- The text-node strings of a subtree, in document order. -/
def stringsOf (n : HNode) : List String :=
  (HNode.desc n).filterMap (fun m =>
    match m with
    | .text s => some s
    | .elem _ _ _ _ => none)

/-- `el.get_text(" ", strip=True)`: strip each string, drop the empty
ones, join with a single space. -/
def getTextSpaceStrip (n : HNode) : String :=
  String.intercalate " " (((stringsOf n).map pyStrip).filter (fun s => !(s == "")))

/-- `el.get_text(strip=True)`: strip each string, drop the empty ones,
concatenate. -/
def getTextStrip (n : HNode) : String :=
  String.join (((stringsOf n).map pyStrip).filter (fun s => !(s == "")))

/-- `parsing._collect_paragraphs`: the texts of the descendant `p`
elements that are longer than one character. -/
def collect_paragraphs (el : HNode) : List String :=
  (((HNode.desc el).filter (matchesSel ⟨"p", none, none⟩)).map getTextSpaceStrip).filter
    (fun t => decide (1 < t.length))

/-- `soup.body or soup`: the first `body` element, else the document
itself. -/
def bodyOr (doc : HNode) : HNode :=
  match selectOne ⟨"body", none, none⟩ doc with
  | some b => b
  | none => doc

/-- BeautifulSoup `tag.string`: the single string of a chain of
single-child nodes, `None` as soon as a node has zero or several
children. -/
def nodeString : HNode → Option String
  | .text s => some s
  | .elem _ _ _ [c] => nodeString c
  | .elem _ _ _ _ => none

/-- The document-title part of `extract_meta`:
`if soup.title and soup.title.string: meta["title"] = soup.title.string.strip()`. -/
def docTitleRaw (doc : HNode) : Option String :=
  match selectOne ⟨"title", none, none⟩ doc with
  | some t =>
    match nodeString t with
    | some s => if s = "" then none else some (pyStrip s)
    | none => none
  | none => none

/-- The `content` attribute of the first `og:title` meta tag. -/
def ogTitleContent (doc : HNode) : Option String :=
  match selectOne ⟨"meta", none, some ("property", "og:title")⟩ doc with
  | some m => attrOf m "content"
  | none => none

/-- The title field of `extract_meta`: document title, overridden by a
truthy (non-empty) `og:title` content. -/
def metaTitle (doc : HNode) : Option String :=
  let base := docTitleRaw doc
  match ogTitleContent doc with
  | some c => if c = "" then base else some (pyStrip c)
  | none => base

/-- The author selector chain of `extract_meta`. -/
def AUTHOR_SELECTORS : List CssSel :=
  [⟨"meta", none, some ("name", "author")⟩,
   ⟨"a", some "byline__name", none⟩,
   ⟨"span", some "byline__name", none⟩,
   ⟨"a", none, some ("rel", "author")⟩]

/-- The author loop of `extract_meta`: first selector whose match
yields truthy content (`content` attribute for `meta` tags, stripped
text otherwise); a match with falsy content does not stop the loop. -/
def authorFrom (doc : HNode) : List CssSel → Option String
  | [] => none
  | s :: rest =>
    match selectOne s doc with
    | some tag =>
      match (if tagOf tag == "meta" then attrOf tag "content" else some (getTextStrip tag)) with
      | some c => if c = "" then authorFrom doc rest else some c
      | none => authorFrom doc rest
    | none => authorFrom doc rest

/-- The date field of `extract_meta`: truthy content of the first
`article:published_time` meta tag, kept as a raw string. -/
def metaDate (doc : HNode) : Option String :=
  match selectOne ⟨"meta", none, some ("property", "article:published_time")⟩ doc with
  | some m =>
    match attrOf m "content" with
    | some c => if c = "" then none else some c
    | none => none
  | none => none

mutual

/-- The elements matching `nav.breadcrumbs a:last-of-type`, in document
order: `a` elements that are the last `a` child of their parent and
have an ancestor `nav` with class `breadcrumbs`.  `under` records
whether such an ancestor has been passed. -/
def breadcrumbAnchors (under : Bool) : HNode → List HNode
  | .text _ => []
  | .elem t classes _ cs =>
    breadcrumbAnchorsList (under || (t == "nav" && classes.contains "breadcrumbs")) cs

/-- Walk the children of one element; a child is emitted when it is the
last `a`-tagged sibling and the walk is under `nav.breadcrumbs`. -/
def breadcrumbAnchorsList (under : Bool) : List HNode → List HNode
  | [] => []
  | c :: rest =>
    (if under && (tagOf c == "a") && !(rest.any (fun d => tagOf d == "a"))
     then [c] else []) ++
      breadcrumbAnchors under c ++ breadcrumbAnchorsList under rest

end

/-- The section field of `extract_meta`: truthy content of the first
`article:section` meta tag, else the text of the first
`nav.breadcrumbs a:last-of-type` match. -/
def metaSection (doc : HNode) : Option String :=
  let base :=
    match selectOne ⟨"meta", none, some ("property", "article:section")⟩ doc with
    | some m =>
      match attrOf m "content" with
      | some c => if c = "" then none else some c
      | none => none
    | none => none
  match base with
  | some s => some s
  | none => ((breadcrumbAnchors false doc).head?).map getTextStrip

/-- The metadata record of `extract_meta`. -/
structure PageMeta where
  title : Option String
  author : Option String
  date : Option String
  sectionName : Option String
  deriving DecidableEq

/-- `parsing.extract_meta`. -/
def extract_meta (doc : HNode) : PageMeta where
  title := metaTitle doc
  author := authorFrom doc AUTHOR_SELECTORS
  date := metaDate doc
  sectionName := metaSection doc

/-- `"\n\n".join(paras)`. -/
def joinBlankLine (ps : List String) : String :=
  String.intercalate "\x0a\x0a" ps

/-- The selector loop of `extract_article_text`: for each selector in
order, if it has a (first) matching container whose collected
paragraphs number at least two, return those paragraphs. -/
def tryBodySelectors (doc : HNode) : List CssSel → Option (List String)
  | [] => none
  | s :: rest =>
    match selectOne s doc with
    | some c =>
      let ps := collect_paragraphs c
      if 2 ≤ ps.length then some ps else tryBodySelectors doc rest
    | none => tryBodySelectors doc rest

/-- `parsing.extract_article_text`. -/
def extract_article_text (doc : HNode) : String × PageMeta :=
  let meta := extract_meta doc
  match tryBodySelectors doc BODY_SELECTORS with
  | some ps => (joinBlankLine ps, meta)
  | none => (joinBlankLine (collect_paragraphs (bodyOr doc)), meta)

/-- The first candidate container accepted by the selector loop: among
the containers the selectors resolve to, in selector order, the first
that yields at least two paragraphs. -/
def firstAcceptedContainer (doc : HNode) : Option HNode :=
  (BODY_SELECTORS.filterMap (fun s => selectOne s doc)).find?
    (fun c => decide (2 ≤ (collect_paragraphs c).length))

/-! ## Helper lemmas -/

theorem stripChars_eq_nil {l : List Char} (h : ∀ c ∈ l, isPySpace c = true) :
    stripChars l = [] := by
  unfold stripChars
  have h1 : l.dropWhile isPySpace = [] := List.dropWhile_eq_nil_iff.mpr h
  simp [h1]

theorem pyStrip_eq_empty {s : String} (h : ∀ c ∈ s.toList, isPySpace c = true) :
    pyStrip s = "" := by
  unfold pyStrip
  rw [stripChars_eq_nil h]

theorem count_sentences_pos (l : List Char) : 1 ≤ count_sentences l :=
  Nat.le_max_left _ _

/-- In the non-degenerate branch, `readability_metrics` returns the
three score expressions and the two counts. -/
theorem readability_metrics_eq (text : String) (h1 : pyStrip text ≠ "")
    (h2 : tokenizeWords (pyStrip text).toList ≠ []) :
    readability_metrics text =
      ⟨some (gunningOf (tokenizeWords (pyStrip text).toList) (count_sentences (pyStrip text).toList)),
       some (daleOf (tokenizeWords (pyStrip text).toList) (count_sentences (pyStrip text).toList)),
       some (fleschOf (tokenizeWords (pyStrip text).toList) (count_sentences (pyStrip text).toList)),
       (tokenizeWords (pyStrip text).toList).length,
       count_sentences (pyStrip text).toList⟩ := by
  have hlen : ¬((tokenizeWords (pyStrip text).toList).length = 0) := by
    intro h
    exact h2 (List.length_eq_zero.mp h)
  unfold readability_metrics
  simp only [if_neg h1, if_neg hlen]

/-- Each score of `readability_metrics` is absent exactly when
`num_words` is zero. -/
theorem readability_metrics_none_iff (text : String) :
    ((readability_metrics text).gunning_fog = none ↔ (readability_metrics text).num_words = 0)
    ∧ ((readability_metrics text).dale_chall = none ↔ (readability_metrics text).num_words = 0)
    ∧ ((readability_metrics text).flesch_reading_ease = none
        ↔ (readability_metrics text).num_words = 0) := by
  by_cases h1 : pyStrip text = ""
  · unfold readability_metrics
    simp [h1]
  · by_cases h2 : tokenizeWords (pyStrip text).toList = []
    · have h2d : tokenizeWords (pyStrip text).data = [] := h2
      unfold readability_metrics
      simp [h1, h2d]
    · rw [readability_metrics_eq text h1 h2]
      have hlen : ¬((tokenizeWords (pyStrip text).data).length = 0) := by
        intro h
        exact h2 (List.length_eq_zero.mp h)
      simp [hlen]

/-! ## Claims -/

/-- C1: empty or whitespace-only input gives `num_words = 0`,
`num_sentences = 0` and all three scores absent; on every input, each
of the three scores is absent exactly when `num_words = 0`. -/
theorem claim_C1 (text : String) :
    ((∀ c ∈ text.toList, isPySpace c = true) →
      readability_metrics text =
        { gunning_fog := none, dale_chall := none, flesch_reading_ease := none,
          num_words := 0, num_sentences := 0 })
    ∧ ((readability_metrics text).gunning_fog = none ↔ (readability_metrics text).num_words = 0)
    ∧ ((readability_metrics text).dale_chall = none ↔ (readability_metrics text).num_words = 0)
    ∧ ((readability_metrics text).flesch_reading_ease = none
        ↔ (readability_metrics text).num_words = 0) := by
  refine ⟨fun h => ?_, readability_metrics_none_iff text⟩
  unfold readability_metrics
  simp [pyStrip_eq_empty h]

/-- C1 witness: a whitespace-only input, evaluated. -/
theorem claim_C1_witness :
    readability_metrics "   " =
      { gunning_fog := none, dale_chall := none, flesch_reading_ease := none,
        num_words := 0, num_sentences := 0 } :=
  (claim_C1 "   ").1 (by decide)

/-- C2: on non-degenerate input the from-scratch path returns exactly
the three formulas of the specification (Flesch Reading Ease, Gunning
Fog, and approximate Dale-Chall with its conditional 3.6365 bonus). -/
theorem claim_C2 (text : String) (h1 : pyStrip text ≠ "")
    (h2 : tokenizeWords (pyStrip text).toList ≠ []) :
    (readability_metrics text).flesch_reading_ease =
      some (206.835
        - 1.015 * (((readability_metrics text).num_words : ℚ)
            / ((readability_metrics text).num_sentences : ℚ))
        - 84.6 * ((count_syllables (tokenizeWords (pyStrip text).toList) : ℚ)
            / ((readability_metrics text).num_words : ℚ)))
    ∧ (readability_metrics text).gunning_fog =
      some (0.4 * ((((readability_metrics text).num_words : ℚ)
            / ((readability_metrics text).num_sentences : ℚ))
        + 100 * ((count_complex_words (tokenizeWords (pyStrip text).toList) : ℚ)
            / ((readability_metrics text).num_words : ℚ))))
    ∧ (readability_metrics text).dale_chall =
      some (
        if 5 < 100 * ((count_difficult_words (tokenizeWords (pyStrip text).toList) : ℚ)
            / ((readability_metrics text).num_words : ℚ))
        then 0.1579 * (100 * ((count_difficult_words (tokenizeWords (pyStrip text).toList) : ℚ)
            / ((readability_metrics text).num_words : ℚ)))
          + 0.0496 * (((readability_metrics text).num_words : ℚ)
            / ((readability_metrics text).num_sentences : ℚ)) + 3.6365
        else 0.1579 * (100 * ((count_difficult_words (tokenizeWords (pyStrip text).toList) : ℚ)
            / ((readability_metrics text).num_words : ℚ)))
          + 0.0496 * (((readability_metrics text).num_words : ℚ)
            / ((readability_metrics text).num_sentences : ℚ))) := by
  rw [readability_metrics_eq text h1 h2]
  have hns : (max 1 (count_sentences (pyStrip text).toList) : ℚ)
      = ((count_sentences (pyStrip text).toList : ℚ)) := by
    rw [max_eq_right]
    exact_mod_cast count_sentences_pos (pyStrip text).toList
  have hasl : aslOf (tokenizeWords (pyStrip text).toList) (count_sentences (pyStrip text).toList)
      = (((tokenizeWords (pyStrip text).toList).length : ℚ)
          / ((count_sentences (pyStrip text).toList : ℚ))) := by
    unfold aslOf
    rw [hns]
  have hpdw : pdwOf (tokenizeWords (pyStrip text).toList)
      = 100 * ((count_difficult_words (tokenizeWords (pyStrip text).toList) : ℚ)
          / (((tokenizeWords (pyStrip text).toList).length : ℚ))) := by
    unfold pdwOf
    ring
  refine ⟨?_, ?_, ?_⟩
  · unfold fleschOf
    rw [hasl]
  · unfold gunningOf
    rw [hasl]
    ring_nf
  · unfold daleOf
    rw [hpdw, hasl]

/-- C2 witness: the formulas instantiated on a concrete sentence. -/
theorem claim_C2_witness :
    (readability_metrics "Hi.").flesch_reading_ease =
      some (206.835
        - 1.015 * (((readability_metrics "Hi.").num_words : ℚ)
            / ((readability_metrics "Hi.").num_sentences : ℚ))
        - 84.6 * ((count_syllables (tokenizeWords (pyStrip "Hi.").toList) : ℚ)
            / ((readability_metrics "Hi.").num_words : ℚ)))
    ∧ (readability_metrics "Hi.").gunning_fog =
      some (0.4 * ((((readability_metrics "Hi.").num_words : ℚ)
            / ((readability_metrics "Hi.").num_sentences : ℚ))
        + 100 * ((count_complex_words (tokenizeWords (pyStrip "Hi.").toList) : ℚ)
            / ((readability_metrics "Hi.").num_words : ℚ))))
    ∧ (readability_metrics "Hi.").dale_chall =
      some (
        if 5 < 100 * ((count_difficult_words (tokenizeWords (pyStrip "Hi.").toList) : ℚ)
            / ((readability_metrics "Hi.").num_words : ℚ))
        then 0.1579 * (100 * ((count_difficult_words (tokenizeWords (pyStrip "Hi.").toList) : ℚ)
            / ((readability_metrics "Hi.").num_words : ℚ)))
          + 0.0496 * (((readability_metrics "Hi.").num_words : ℚ)
            / ((readability_metrics "Hi.").num_sentences : ℚ)) + 3.6365
        else 0.1579 * (100 * ((count_difficult_words (tokenizeWords (pyStrip "Hi.").toList) : ℚ)
            / ((readability_metrics "Hi.").num_words : ℚ)))
          + 0.0496 * (((readability_metrics "Hi.").num_words : ℚ)
            / ((readability_metrics "Hi.").num_sentences : ℚ))) :=
  claim_C2 "Hi." (by decide) (by decide)

theorem wmAccum_eq (l : List (Option ℚ × ℤ)) (n : ℚ) (d : ℤ) :
    wmAccum l n d = (n + wmNum l, d + wmDen l) := by
  induction l generalizing n d with
  | nil => simp [wmAccum, wmNum, wmDen]
  | cons e rest ih =>
    obtain ⟨v, w⟩ := e
    match v with
    | none => simp [wmAccum, wmNum, wmDen, wmQualifies, ih]
    | some x =>
      by_cases hw : w ≤ 0
      · have hq : wmQualifies (some x, w) = false := by
          simp [wmQualifies]
          omega
        simp [wmAccum, wmNum, wmDen, hq, if_pos hw, ih]
      · have hq : wmQualifies (some x, w) = true := by
          simp [wmQualifies]
          omega
        simp [wmAccum, wmNum, wmDen, hq, if_neg hw, ih]
        constructor <;> ring

/-- `_weighted_mean` characterized through the qualifying entries. -/
theorem pyWeightedMean_eq (values : List (Option ℚ × ℤ)) :
    pyWeightedMean values =
      if wmDen values = 0 then none else some (wmNum values / (wmDen values : ℚ)) := by
  unfold pyWeightedMean
  rw [wmAccum_eq]
  simp

theorem wmDen_eq_zero_iff (values : List (Option ℚ × ℤ)) :
    wmDen values = 0 ↔ values.filter wmQualifies = [] := by
  constructor
  · intro h
    by_contra hne
    have hpos : 0 < wmDen values := by
      unfold wmDen
      refine List.sum_pos _ (fun a ha => ?_) ?_
      · obtain ⟨e, he, rfl⟩ := List.mem_map.mp ha
        have hq := (List.mem_filter.mp he).2
        have := (Bool.and_eq_true _ _).mp hq
        exact of_decide_eq_true this.2
      · simpa using hne
    omega
  · intro h
    unfold wmDen
    rw [h]
    rfl

theorem pyMean_eq_none_iff (values : List (Option ℚ)) :
    pyMean values = none ↔ ∀ v ∈ values, v = none := by
  unfold pyMean
  by_cases h : (values.filterMap id).length = 0
  · simp only [if_pos h, true_iff]
    intro v hv
    have : values.filterMap id = [] := List.length_eq_zero.mp h
    have := List.filterMap_eq_nil_iff.mp this v hv
    simpa using this
  · simp only [if_neg h]
    constructor
    · intro hc
      exact absurd hc (Option.some_ne_none _)
    · intro hall
      exfalso
      apply h
      rw [List.length_eq_zero]
      exact List.filterMap_eq_nil_iff.mpr (fun v hv => by simp [hall v hv])

/-- Under the invariant "present value implies positive weight", the
weighted mean is absent exactly when the unweighted mean is. -/
theorem wm_none_iff_mean_none {l : List (Option ℚ × ℤ)}
    (h : ∀ e ∈ l, e.1 ≠ none → 1 ≤ e.2) :
    (pyWeightedMean l = none ↔ pyMean (l.map (fun e => e.1)) = none) := by
  rw [pyWeightedMean_eq, pyMean_eq_none_iff]
  have hden : wmDen l = 0 ↔ ∀ e ∈ l, e.1 = none := by
    rw [wmDen_eq_zero_iff, List.filter_eq_nil_iff]
    constructor
    · intro hq e he
      by_contra hne
      apply hq e he
      unfold wmQualifies
      have h1 : e.1.isSome = true := Option.isSome_iff_ne_none.mpr hne
      have h2 : 1 ≤ e.2 := h e he hne
      simp [h1]
      omega
    · intro hall e he
      unfold wmQualifies
      simp [hall e he]
  constructor
  · intro hc
    rcases ite_eq_iff.mp hc with ⟨h0, _⟩ | ⟨_, hsome⟩
    · intro v hv
      obtain ⟨e, he, rfl⟩ := List.mem_map.mp hv
      exact hden.mp h0 e he
    · exact absurd hsome (Option.some_ne_none _)
  · intro hall
    have h0 : wmDen l = 0 := hden.mpr (fun e he => hall e.1 (List.mem_map.mpr ⟨e, he, rfl⟩))
    simp [h0]

/-- C3: the weighted mean equals the weighted-sum quotient over exactly
the entries with a present value and strictly positive weight, is
absent exactly when the qualifying total weight is zero (equivalently,
when no entry qualifies), and maps `[(10, 100), (20, 0)]` to `10`. -/
theorem claim_C3 (values : List (Option ℚ × ℤ)) :
    (pyWeightedMean values =
      if wmDen values = 0 then none else some (wmNum values / (wmDen values : ℚ)))
    ∧ (wmDen values = 0 ↔ values.filter wmQualifies = [])
    ∧ pyWeightedMean [(some 10, 100), (some 20, 0)] = some 10 :=
  ⟨pyWeightedMean_eq values, wmDen_eq_zero_iff values, by norm_num [pyWeightedMean, wmAccum]⟩

/-- A concrete article row with no scores (all three absent). -/
def rowNoScores : ArticleRow where
  source := "magazine"
  url := "u1"
  title := none
  author := none
  sectionName := none
  published := none
  issue_date := some "2020-01-01"
  num_words := 0
  num_sentences := 0
  gunning_fog := none
  dale_chall := none
  flesch_reading_ease := none

/-- A concrete article row with all three scores present. -/
def rowWithScores : ArticleRow where
  source := "magazine"
  url := "u2"
  title := none
  author := none
  sectionName := none
  published := none
  issue_date := some "2020-01-01"
  num_words := 10
  num_sentences := 2
  gunning_fog := some 5
  dale_chall := some 7
  flesch_reading_ease := some 80

/-- C5: a group in which no article has a present value for a metric
yields an absent unweighted mean and an absent weighted mean for that
metric (the aggregation functions are total, so no error can occur). -/
theorem claim_C5 (k : String × String) (items : List ArticleRow) :
    ((∀ r ∈ items, r.gunning_fog = none) →
      (mkIssueRow k items).gunning_fog_mean = none
      ∧ (mkIssueRow k items).gunning_fog_weighted_mean = none)
    ∧ ((∀ r ∈ items, r.dale_chall = none) →
      (mkIssueRow k items).dale_chall_mean = none
      ∧ (mkIssueRow k items).dale_chall_weighted_mean = none)
    ∧ ((∀ r ∈ items, r.flesch_reading_ease = none) →
      (mkIssueRow k items).flesch_reading_ease_mean = none
      ∧ (mkIssueRow k items).flesch_reading_ease_weighted_mean = none) := by
  refine ⟨fun h => ⟨?_, ?_⟩, fun h => ⟨?_, ?_⟩, fun h => ⟨?_, ?_⟩⟩ <;>
    simp only [mkIssueRow]
  · exact (pyMean_eq_none_iff _).mpr (fun v hv => by
      obtain ⟨r, hr, rfl⟩ := List.mem_map.mp hv
      exact h r hr)
  · rw [pyWeightedMean_eq, if_pos]
    rw [wmDen_eq_zero_iff, List.filter_eq_nil_iff]
    intro e he
    obtain ⟨r, hr, rfl⟩ := List.mem_map.mp he
    simp [wmQualifies, h r hr]
  · exact (pyMean_eq_none_iff _).mpr (fun v hv => by
      obtain ⟨r, hr, rfl⟩ := List.mem_map.mp hv
      exact h r hr)
  · rw [pyWeightedMean_eq, if_pos]
    rw [wmDen_eq_zero_iff, List.filter_eq_nil_iff]
    intro e he
    obtain ⟨r, hr, rfl⟩ := List.mem_map.mp he
    simp [wmQualifies, h r hr]
  · exact (pyMean_eq_none_iff _).mpr (fun v hv => by
      obtain ⟨r, hr, rfl⟩ := List.mem_map.mp hv
      exact h r hr)
  · rw [pyWeightedMean_eq, if_pos]
    rw [wmDen_eq_zero_iff, List.filter_eq_nil_iff]
    intro e he
    obtain ⟨r, hr, rfl⟩ := List.mem_map.mp he
    simp [wmQualifies, h r hr]

/-- C5 witness: one group with a single score-free article, all six
aggregate fields evaluated. -/
theorem claim_C5_witness :
    ((mkIssueRow ("2020-01-01", "magazine") [rowNoScores]).gunning_fog_mean = none
      ∧ (mkIssueRow ("2020-01-01", "magazine") [rowNoScores]).gunning_fog_weighted_mean = none)
    ∧ ((mkIssueRow ("2020-01-01", "magazine") [rowNoScores]).dale_chall_mean = none
      ∧ (mkIssueRow ("2020-01-01", "magazine") [rowNoScores]).dale_chall_weighted_mean = none)
    ∧ ((mkIssueRow ("2020-01-01", "magazine") [rowNoScores]).flesch_reading_ease_mean = none
      ∧ (mkIssueRow ("2020-01-01", "magazine") [rowNoScores]).flesch_reading_ease_weighted_mean
          = none) :=
  ⟨(claim_C5 ("2020-01-01", "magazine") [rowNoScores]).1 (by decide),
   (claim_C5 ("2020-01-01", "magazine") [rowNoScores]).2.1 (by decide),
   (claim_C5 ("2020-01-01", "magazine") [rowNoScores]).2.2 (by decide)⟩

/-- C10: a metrics row with any present score has `num_words ≥ 1`, and
for any group of rows satisfying this invariant each weighted mean is
absent exactly when the corresponding unweighted mean is. -/
theorem claim_C10 :
    (∀ text : String,
      ((readability_metrics text).gunning_fog ≠ none
        ∨ (readability_metrics text).dale_chall ≠ none
        ∨ (readability_metrics text).flesch_reading_ease ≠ none) →
      1 ≤ (readability_metrics text).num_words)
    ∧ (∀ items : List ArticleRow,
        (∀ r ∈ items,
          (r.gunning_fog ≠ none → 1 ≤ r.num_words)
          ∧ (r.dale_chall ≠ none → 1 ≤ r.num_words)
          ∧ (r.flesch_reading_ease ≠ none → 1 ≤ r.num_words)) →
        ∀ k : String × String,
          ((mkIssueRow k items).gunning_fog_weighted_mean = none
            ↔ (mkIssueRow k items).gunning_fog_mean = none)
          ∧ ((mkIssueRow k items).dale_chall_weighted_mean = none
            ↔ (mkIssueRow k items).dale_chall_mean = none)
          ∧ ((mkIssueRow k items).flesch_reading_ease_weighted_mean = none
            ↔ (mkIssueRow k items).flesch_reading_ease_mean = none)) := by
  constructor
  · intro text hsome
    have hiff := readability_metrics_none_iff text
    rw [Nat.one_le_iff_ne_zero]
    rcases hsome with h | h | h
    · exact fun h0 => h (hiff.1.mpr h0)
    · exact fun h0 => h (hiff.2.1.mpr h0)
    · exact fun h0 => h (hiff.2.2.mpr h0)
  · intro items hinv k
    refine ⟨?_, ?_, ?_⟩ <;> simp only [mkIssueRow]
    · have := wm_none_iff_mean_none
        (l := items.map (fun r => (r.gunning_fog, r.num_words)))
        (fun e he => by
          obtain ⟨r, hr, rfl⟩ := List.mem_map.mp he
          exact (hinv r hr).1)
      simpa [List.map_map, Function.comp] using this
    · have := wm_none_iff_mean_none
        (l := items.map (fun r => (r.dale_chall, r.num_words)))
        (fun e he => by
          obtain ⟨r, hr, rfl⟩ := List.mem_map.mp he
          exact (hinv r hr).2.1)
      simpa [List.map_map, Function.comp] using this
    · have := wm_none_iff_mean_none
        (l := items.map (fun r => (r.flesch_reading_ease, r.num_words)))
        (fun e he => by
          obtain ⟨r, hr, rfl⟩ := List.mem_map.mp he
          exact (hinv r hr).2.2)
      simpa [List.map_map, Function.comp] using this

/-- C10 witness: the invariant instantiated on a metrics row computed
from text, and the equivalence on a concrete one-row group. -/
theorem claim_C10_witness :
    1 ≤ (readability_metrics "Hi.").num_words
    ∧ ((mkIssueRow ("2020-01-01", "magazine") [rowWithScores]).gunning_fog_weighted_mean = none
        ↔ (mkIssueRow ("2020-01-01", "magazine") [rowWithScores]).gunning_fog_mean = none) :=
  ⟨claim_C10.1 "Hi."
    (Or.inl (by
      rw [readability_metrics_eq "Hi." (by decide) (by decide)]
      simp)),
   (claim_C10.2 [rowWithScores] (by decide) ("2020-01-01", "magazine")).1⟩

/-- A concrete issue aggregate with gunning-fog mean 10 and five
articles. -/
def issueEx1 : IssueRow where
  issue_date := "1950-03-04"
  source := "magazine"
  num_articles := 5
  total_words := 1000
  gunning_fog_mean := some 10
  dale_chall_mean := none
  flesch_reading_ease_mean := none
  gunning_fog_weighted_mean := none
  dale_chall_weighted_mean := none
  flesch_reading_ease_weighted_mean := none

/-- A concrete issue aggregate with gunning-fog mean 20 and one
article. -/
def issueEx2 : IssueRow where
  issue_date := "1950-06-01"
  source := "magazine"
  num_articles := 1
  total_words := 50
  gunning_fog_mean := some 20
  dale_chall_mean := none
  flesch_reading_ease_mean := none
  gunning_fog_weighted_mean := none
  dale_chall_weighted_mean := none
  flesch_reading_ease_weighted_mean := none

theorem aggregate_per_year_keys (xs : List IssueRow) :
    (aggregate_per_year xs).map (fun y => (y.year, y.source)) = yearKeys xs := by
  unfold aggregate_per_year
  rw [List.map_map]
  have hco : ((fun y : YearRow => (y.year, y.source))
      ∘ (fun k => mkYearRow k (yearGroup xs k))) = id := by
    funext k
    simp [mkYearRow]
  rw [hco, List.map_id]

/-- C4: year aggregation groups the issue aggregates by the calendar
year of the issue date (the leading four digits of the valid ISO date)
and the source, emits the keys in ascending `(year, source)` order,
computes each metric as the unweighted mean of the issue-level
unweighted means, and on two issues with gunning-fog means 10 and 20
(with 5 and 1 articles) produces the single year mean 15. -/
theorem claim_C4 (xs : List IssueRow)
    (_hvalid : ∀ x ∈ xs, isValidIsoDate x.issue_date = true) :
    List.Sorted yearKeyLE ((aggregate_per_year xs).map (fun y => (y.year, y.source)))
    ∧ (∀ k : Nat × String,
        k ∈ (aggregate_per_year xs).map (fun y => (y.year, y.source))
          ↔ ∃ x ∈ xs, yearOf x.issue_date = k.1 ∧ x.source = k.2)
    ∧ (∀ yr ∈ aggregate_per_year xs,
        yr.gunning_fog_mean
            = pyMean ((yearGroup xs (yr.year, yr.source)).map (fun x => x.gunning_fog_mean))
        ∧ yr.dale_chall_mean
            = pyMean ((yearGroup xs (yr.year, yr.source)).map (fun x => x.dale_chall_mean))
        ∧ yr.flesch_reading_ease_mean
            = pyMean ((yearGroup xs (yr.year, yr.source)).map
                (fun x => x.flesch_reading_ease_mean)))
    ∧ (aggregate_per_year [issueEx1, issueEx2]
          = [mkYearRow (1950, "magazine") [issueEx1, issueEx2]]
        ∧ (mkYearRow (1950, "magazine") [issueEx1, issueEx2]).gunning_fog_mean = some 15) := by
  refine ⟨?_, ?_, ?_, rfl, ?_⟩
  · rw [aggregate_per_year_keys]
    exact List.sorted_insertionSort _ _
  · intro k
    rw [aggregate_per_year_keys]
    unfold yearKeys
    rw [List.mem_insertionSort, List.mem_dedup, List.mem_map]
    constructor
    · rintro ⟨x, hx, rfl⟩
      exact ⟨x, hx, rfl, rfl⟩
    · rintro ⟨x, hx, h1, h2⟩
      refine ⟨x, hx, ?_⟩
      rw [h1, h2]
  · intro yr hyr
    unfold aggregate_per_year at hyr
    obtain ⟨k, _, rfl⟩ := List.mem_map.mp hyr
    simp [mkYearRow]
  · norm_num [mkYearRow, pyMean, issueEx1, issueEx2, List.filterMap_cons]

/-- C4 witness: the sortedness and the mean-of-means value on the
two-issue example. -/
theorem claim_C4_witness :
    List.Sorted yearKeyLE
      ((aggregate_per_year [issueEx1, issueEx2]).map (fun y => (y.year, y.source)))
    ∧ (mkYearRow (1950, "magazine") [issueEx1, issueEx2]).gunning_fog_mean = some 15 :=
  ⟨(claim_C4 [issueEx1, issueEx2] (by decide)).1,
   (claim_C4 [issueEx1, issueEx2] (by decide)).2.2.2.2⟩

/-- A concrete article row with neither an issue date nor a published
date. -/
def rowBothNone : ArticleRow where
  source := "web"
  url := "u3"
  title := none
  author := none
  sectionName := none
  published := none
  issue_date := none
  num_words := 4
  num_sentences := 1
  gunning_fog := some 2
  dale_chall := some 3
  flesch_reading_ease := some 90

/-- C6: the issue grouping key is `issue_date` when present, otherwise
`published`; a row with neither key joins no issue group (and therefore
no year group, which is derived from the issue rows alone) yet still
appears in the per-article export.  The hypotheses record that rows
entering aggregation carry `None` rather than an empty string, which is
what `compute_per_article`'s `... or None` normalization guarantees. -/
theorem claim_C6 (rows : List ArticleRow) (r : ArticleRow)
    (h1 : r.issue_date ≠ some "") (h2 : r.published ≠ some "") :
    (keyDateOf r =
      match r.issue_date with
      | some d => some d
      | none => r.published)
    ∧ (r.issue_date = none → r.published = none →
        (∀ k : String × String, r ∉ groupRows rows k)
        ∧ (r ∈ rows → r ∈ write_per_article_csv rows)) := by
  constructor
  · rcases hd : r.issue_date with _ | d
    · rcases hp : r.published with _ | p
      · simp [keyDateOf, pyOrStr, truthyStr, hd, hp]
      · have hpne : ¬(p = "") := fun hcon => h2 (by rw [hp, hcon])
        simp [keyDateOf, pyOrStr, truthyStr, hd, hp, hpne]
    · have hdne : ¬(d = "") := fun hcon => h1 (by rw [hd, hcon])
      simp [keyDateOf, pyOrStr, truthyStr, hd, hdne]
  · intro hd hp
    constructor
    · intro k hk
      have hmem := List.mem_filter.mp hk
      have hdec := of_decide_eq_true hmem.2
      have hnone : keyDateOf r = none := by
        simp [keyDateOf, pyOrStr, truthyStr, hd, hp]
      rw [hnone] at hdec
      exact Option.noConfusion hdec.1
    · intro hr
      exact hr

/-- C6 witness: a dateless row, excluded from every issue group but
present in the export. -/
theorem claim_C6_witness :
    keyDateOf rowBothNone = none
    ∧ (∀ k : String × String, rowBothNone ∉ groupRows [rowBothNone] k)
    ∧ rowBothNone ∈ write_per_article_csv [rowBothNone] := by
  have h := claim_C6 [rowBothNone] rowBothNone (by decide) (by decide)
  exact ⟨h.1, (h.2 rfl rfl).1, (h.2 rfl rfl).2 (by decide)⟩

theorem tryBodySelectors_eq (doc : HNode) (sels : List CssSel) :
    tryBodySelectors doc sels =
      ((sels.filterMap (fun s => selectOne s doc)).find?
        (fun c => decide (2 ≤ (collect_paragraphs c).length))).map collect_paragraphs := by
  induction sels with
  | nil => rfl
  | cons s rest ih =>
    simp only [tryBodySelectors, List.filterMap_cons]
    cases hsel : selectOne s doc with
    | none => exact ih
    | some c =>
      by_cases hp : 2 ≤ (collect_paragraphs c).length
      · simp [List.find?, hp]
      · simp [List.find?, hp, ih]

/-- C8: the extracted body text is the blank-line join of the
paragraphs of the first accepted candidate container — the containers
resolved by the ordered selector list, accepted as soon as one yields
at least two collected paragraphs (non-empty, longer than one character
after trimming), skipping all later selectors; when no candidate is
accepted, the paragraphs are collected under the first `body` element
(the whole document if there is none), and the result is the empty
string when that fallback finds no paragraph. -/
theorem claim_C8 (doc : HNode) :
    ((extract_article_text doc).1 =
      match firstAcceptedContainer doc with
      | some c => joinBlankLine (collect_paragraphs c)
      | none => joinBlankLine (collect_paragraphs (bodyOr doc)))
    ∧ (firstAcceptedContainer doc = none → collect_paragraphs (bodyOr doc) = [] →
        (extract_article_text doc).1 = "") := by
  have ht := tryBodySelectors_eq doc BODY_SELECTORS
  constructor
  · unfold extract_article_text
    rw [ht]
    unfold firstAcceptedContainer
    cases hf : (BODY_SELECTORS.filterMap (fun s => selectOne s doc)).find?
        (fun c => decide (2 ≤ (collect_paragraphs c).length)) with
    | none => simp
    | some c => simp
  · intro h1 h2
    unfold extract_article_text
    rw [ht]
    unfold firstAcceptedContainer at h1
    rw [h1, h2]
    rfl

/-- A concrete document with no paragraph anywhere. -/
def docNoParas : HNode :=
  .elem "[document]" [] []
    [.elem "html" [] []
      [.elem "body" [] [] [.elem "div" [] [] [.text "hello"]]]]

/-- C8 witness: a paragraph-free document extracts to the empty
string. -/
theorem claim_C8_witness : (extract_article_text docNoParas).1 = "" :=
  (claim_C8 docNoParas).2 rfl rfl

/-- A concrete document whose `og:title` meta tag has whitespace-only
content alongside a document title. -/
def docWsOgTitle : HNode :=
  .elem "[document]" [] []
    [.elem "html" [] []
      [.elem "head" [] []
        [.elem "title" [] [] [.text "Sample"],
         .elem "meta" [] [("property", "og:title"), ("content", "   ")] []]]]

/-- C9 counterexample: with document title `Sample` and an `og:title`
content of `"   "` (whitespace-only, hence truthy in Python), the code
overrides the title with the stripped content — the empty string — and
does not keep the document title as the claim states. -/
theorem claim_C9_counterexample :
    (extract_meta docWsOgTitle).title = some ""
    ∧ (extract_meta docWsOgTitle).title ≠ some "Sample"
    ∧ docTitleRaw docWsOgTitle = some "Sample"
    ∧ ogTitleContent docWsOgTitle = some "   " := by
  refine ⟨rfl, ?_, rfl, rfl⟩
  intro hcon
  have : ("" : String) = "Sample" := Option.some.inj hcon
  simp at this

/-- C9 (amended): the title is the document title, overridden by the
`og:title` content exactly when that tag is present with a non-empty
content attribute; the overriding value is the stripped content, so a
whitespace-only content does override and yields an empty title; the
document title is kept only when the content is missing or the empty
string. -/
theorem claim_C9 (doc : HNode) :
    (ogTitleContent doc = none → (extract_meta doc).title = docTitleRaw doc)
    ∧ (ogTitleContent doc = some "" → (extract_meta doc).title = docTitleRaw doc)
    ∧ (∀ c, ogTitleContent doc = some c → c ≠ "" →
        (extract_meta doc).title = some (pyStrip c)) := by
  refine ⟨fun h => ?_, fun h => ?_, fun c hc hne => ?_⟩
  · simp only [extract_meta, metaTitle]
    rw [h]
  · simp only [extract_meta, metaTitle]
    rw [h]
    simp
  · simp only [extract_meta, metaTitle]
    rw [hc]
    simp [hne]

/-- C9 witness: the amended override rule evaluated on the concrete
whitespace-content document. -/
theorem claim_C9_witness :
    (extract_meta docWsOgTitle).title = some (pyStrip "   ") :=
  (claim_C9 docWsOgTitle).2.2 "   " rfl (by decide)

/-- The syllable rule exactly as the specification words it: strip one
trailing `e` unless the word ends in `le` (no length condition), then
count maximal vowel runs case-insensitively, with a floor of one. -/
def claim_syllable_rule (w : List Char) : Nat :=
  let l := w.map Char.toLower
  let stripped := if endsInSilentE l then l.dropLast else l
  max 1 (countVowelRuns stripped false)

/-- C7: the code's syllable estimate (which strips the trailing `e`
only for words longer than two characters) agrees with the
specification's rule on every word; the extra length condition is
unobservable thanks to the one-syllable floor. -/
theorem claim_C7 (w : List Char) : count_syllables_in_word w = claim_syllable_rule w := by
  unfold count_syllables_in_word claim_syllable_rule
  generalize (w.map Char.toLower) = l
  dsimp only
  by_cases he : endsInSilentE l = true
  · by_cases hlen : 2 < l.length
    · simp [he, hlen]
    · have hc : (decide (2 < l.length) && endsInSilentE l) = false := by
        rw [decide_eq_false hlen, Bool.false_and]
      rw [hc, he]
      simp only [Bool.false_eq_true, if_false, if_true]
      rcases l with _ | ⟨a, _ | ⟨b, t⟩⟩
      · simp [endsInSilentE] at he
      · have ha : a = 'e' := by
          simpa [endsInSilentE] using he
        subst ha
        decide
      · rcases t with _ | ⟨c, t⟩
        · have hb : b = 'e' := by
            simp [endsInSilentE] at he
            exact he.1
          subst hb
          rcases hva : isVowel a <;>
            simp [countVowelRuns, hva, show isVowel 'e' = true from rfl]
        · exfalso
          apply hlen
          simp only [List.length_cons]
          omega
  · simp [he]

end RL
